import Mathlib

/-!
Verification of the conversation-orchestration core of the chatbot backend
(`chatbot-vangelis-be`). The definitions below are a shallow embedding of the
relevant functions of the orchestration source file: external I/O (database
rows, Google Sheets, web pages, the completion backend) is made explicit as
function arguments and state records, while every piece of logic (string
formatting, truncation, header matching, teardown sequencing) is translated
directly from the source.
-/

namespace VangelisChatbot

/-- A chat message row: `role` and `content` (the `Message` Sequelize model).
The per-session history is kept as a list already ordered by timestamp
ascending, which is the only order in which the source ever reads it. -/
structure Message where
  role : String
  content : String
deriving DecidableEq

/-- The result of `fetchWebpageContent`: page title and collapsed body text. -/
structure WebpageData where
  title : String
  content : String
deriving DecidableEq

/-- The singleton `GlobalSettings` row (id 1). `targetSpreadsheetId` is
nullable in the schema, hence `Option`. -/
structure GlobalSettings where
  prompt : String
  knowledgeBaseSheetIds : List String
  knowledgeBaseUrls : List String
  extractionHeaders : List String
  targetSpreadsheetId : Option String
deriving DecidableEq

/-- A `ChatVariable` row for one session: extracted field name, value, and
creation timestamp (modelled as a `Nat` tick). -/
structure ChatVariableRec where
  variableName : String
  variableValue : String
  timestamp : Nat
deriving DecidableEq

/-- One cell of a rendered sheet row: the source writes `row[index] || ''`,
so a missing cell and an empty-string cell both render as the empty string. -/
def renderCell (row : List String) (index : Nat) : String :=
  match row.get? index with
  | some c => if c = "" then "" else c
  | none => ""

/-- One data row of a sheet rendered for context: the source maps over the
HEADER list with index, producing comma-separated entries of the shape
header, colon, cell. -/
def renderRow (headers row : List String) : String :=
  String.intercalate ", " (headers.enum.map (fun p => p.2 ++ ": " ++ renderCell row p.1))

/-- Spec-side rendering of a data row, written from the words of the spec:
one entry per header in header order, where the cell is looked up by the
header position and an empty or missing cell contributes the empty string. -/
def renderRowAligned (headers row : List String) : String :=
  String.intercalate ", " (headers.enum.map (fun p => p.2 ++ ": " ++ row.getD p.1 ""))

/-- The per-sheet contribution inside `formatAllSheetDataForContext`:
`none` when the fetch failed (the catch branch logs and adds nothing) or the
sheet has no rows at all; otherwise the labelled block built from the header
row and the remaining rows. `fetch` stands for `fetchSheetData`, with `none`
for a thrown error. -/
def sheetBlock (fetch : String → Option (List (List String))) (sheetId : String) :
    Option String :=
  match fetch sheetId with
  | none => none
  | some [] => none
  | some (headers :: rows) =>
    some ("\nData from Sheet " ++ sheetId ++ ":\n" ++
      String.join (rows.map (fun row => renderRow headers row ++ "\n")))

/-- The loop body of `formatAllSheetDataForContext`: append the block of one
sheet to the accumulated context, or nothing on failure or empty data. -/
def sheetContextStep (fetch : String → Option (List (List String)))
    (allContext : String) (sheetId : String) : String :=
  match sheetBlock fetch sheetId with
  | none => allContext
  | some b => allContext ++ b

/-- `formatAllSheetDataForContext`: empty id list yields the empty string;
otherwise the accumulator starts with the category label and each sheet in
order appends its block (nothing on failure or empty data). -/
def formatAllSheetDataForContext (fetch : String → Option (List (List String)))
    (sheetIds : List String) : String :=
  if sheetIds.isEmpty then ""
  else sheetIds.foldl (sheetContextStep fetch) "Knowledge Base Information:\n"

/-- The per-URL contribution inside `formatAllWebpageContentForContext`:
`none` when `fetchWebpageContent` failed, otherwise the labelled block. -/
def webpageBlock (fetch : String → Option WebpageData) (url : String) : Option String :=
  match fetch url with
  | none => none
  | some w =>
    some ("\nContent from " ++ url ++ ":\n" ++
      "Title: " ++ w.title ++ "\n" ++ "Content: " ++ w.content ++ "\n")

/-- The loop body of `formatAllWebpageContentForContext`. -/
def webpageContextStep (fetch : String → Option WebpageData)
    (allContext : String) (url : String) : String :=
  match webpageBlock fetch url with
  | none => allContext
  | some b => allContext ++ b

/-- `formatAllWebpageContentForContext`: same accumulation shape as the sheet
formatter, with the webpage category label. -/
def formatAllWebpageContentForContext (fetch : String → Option WebpageData)
    (urls : List String) : String :=
  if urls.isEmpty then ""
  else urls.foldl (webpageContextStep fetch) "Webpage Knowledge Base:\n"

/-- Helper used to state block-list identities: plain left-to-right string
concatenation of a list of blocks. -/
def concatStrings : List String → String
  | [] => ""
  | s :: rest => s ++ concatStrings rest

/-- The `MAX_LENGTH` constant of the message handler. -/
def MAX_LENGTH : Nat := 500

/-- Model of the JavaScript `s.slice(0, n)`: the first `n` characters. -/
def sliceTo (s : String) (n : Nat) : String :=
  String.mk (s.data.take n)

/-- The response-length limiting step of the message handler: a response
whose length exceeds `MAX_LENGTH` becomes its first `MAX_LENGTH` characters
with the three-dot marker appended; otherwise it is left unchanged. -/
def truncateResponse (s : String) : String :=
  if MAX_LENGTH < s.length then sliceTo s MAX_LENGTH ++ "..." else s

/-- Outcome of one `message` event: the session messages persisted after the
turn, the response emitted to the client (if any), and whether the error
event was emitted from the catch branch. -/
structure TurnResult where
  messages : List Message
  emitted : Option String
  errorEmitted : Bool
deriving DecidableEq

/-- The `socket.on message` handler. `sessionExists` models the
`ChatSession.findByPk` guard; `history` is the session messages before the
event in timestamp order; `completion` is the OpenAI chat call, with `none`
for a thrown error. The handler persists the user message first, builds the
prompt by prepending the base system prompt and then the sheet and webpage
context blocks (later unshifts end up in front), calls the backend, and on
success truncates, persists and emits the assistant message; on backend
failure the catch branch emits the error event and persists nothing more. -/
def handleMessage (gs : GlobalSettings) (sessionExists : Bool) (history : List Message)
    (userText : String)
    (sheetFetch : String → Option (List (List String)))
    (urlFetch : String → Option WebpageData)
    (completion : List Message → Option String) : TurnResult :=
  if !sessionExists then
    { messages := history, emitted := none, errorEmitted := false }
  else
    let messagesAfterUser := history ++ [Message.mk "user" userText]
    let formattedMessages0 := messagesAfterUser.map (fun m => Message.mk m.role m.content)
    let formattedMessages1 := Message.mk "system" gs.prompt :: formattedMessages0
    let formattedMessages2 :=
      if !gs.knowledgeBaseSheetIds.isEmpty then
        Message.mk "system"
          ("Additional Context:\n" ++
            formatAllSheetDataForContext sheetFetch gs.knowledgeBaseSheetIds) ::
          formattedMessages1
      else formattedMessages1
    let formattedMessages3 :=
      if !gs.knowledgeBaseUrls.isEmpty then
        Message.mk "system"
          ("Additional Context:\n" ++
            formatAllWebpageContentForContext urlFetch gs.knowledgeBaseUrls) ::
          formattedMessages2
      else formattedMessages2
    match completion formattedMessages3 with
    | none => { messages := messagesAfterUser, emitted := none, errorEmitted := true }
    | some assistantMessageRaw =>
      let assistantMessage := truncateResponse assistantMessageRaw
      { messages := messagesAfterUser ++ [Message.mk "assistant" assistantMessage],
        emitted := some assistantMessage,
        errorEmitted := false }

/-- The missing-header completion step of `analyzeChatForVariables`: the
parsed backend response keeps all its entries (in order) and every configured
header absent from it is appended with the empty-string value, in header
order. -/
def addMissingHeaders (headers : List String) (extractedVariables : List (String × String)) :
    List (String × String) :=
  let missingHeaders :=
    headers.filter (fun header => !(extractedVariables.any (fun p => p.1 == header)))
  extractedVariables ++ missingHeaders.map (fun header => (header, ""))

/-- The pure core of `analyzeChatForVariables`: with no configured headers it
returns the empty mapping without calling the backend; otherwise the parsed
backend response completed with empty strings for missing headers. The
returned association list is exactly what gets persisted as `ChatVariable`
rows, in order. -/
def analyzeChatForVariables (headers : List String)
    (parsedResponse : List (String × String)) : List (String × String) :=
  if headers.isEmpty then [] else addMissingHeaders headers parsedResponse

/-- Timestamp-descending comparison on `ChatVariable` rows, the order of the
`findAll` query in `writeVariablesToSpreadsheet` (timestamp DESC). -/
def tsGE (a b : ChatVariableRec) : Prop :=
  b.timestamp ≤ a.timestamp

instance instDecTsGE : DecidableRel tsGE :=
  fun a b => inferInstanceAs (Decidable (b.timestamp ≤ a.timestamp))

instance instTotalTsGE : IsTotal ChatVariableRec tsGE :=
  ⟨fun a b => Nat.le_total b.timestamp a.timestamp⟩

instance instTransTsGE : IsTrans ChatVariableRec tsGE :=
  ⟨fun _ _ _ hab hbc => Nat.le_trans hbc hab⟩

/-- The session's `ChatVariable` rows as returned by the database query with
order timestamp DESC. -/
def sortByTimestampDesc (vars : List ChatVariableRec) : List ChatVariableRec :=
  vars.insertionSort tsGE

/-- The per-header cell selection of `writeVariablesToSpreadsheet`: the first
match in the timestamp-descending row list (that is, the most recent value),
or the empty string when the field was never recorded. -/
def selectCell (vars : List ChatVariableRec) (header : String) : String :=
  match (sortByTimestampDesc vars).find? (fun v => v.variableName == header) with
  | some v => v.variableValue
  | none => ""

/-- `writeVariablesToSpreadsheet` as a pure row computation: `none` when no
target spreadsheet is configured or the session has no `ChatVariable` rows
(both early returns append nothing); otherwise the single row appended to
the target sheet, one cell per configured header in configured order. -/
def writeVariablesToSpreadsheet (gs : GlobalSettings)
    (vars : List ChatVariableRec) : Option (List String) :=
  match gs.targetSpreadsheetId with
  | none => none
  | some _ =>
    if vars.isEmpty then none
    else some (gs.extractionHeaders.map (fun header => selectCell vars header))

/-- Database state for one session plus the export side effects, used to model
the teardown sequence (`deleteSession` handler and disconnect handler alike):
the session's messages, its accumulated `ChatVariable` rows, whether the
`ChatSession` row still exists, the rows appended to the target sheet so far,
how many times extraction actually ran (reached the backend), and a tick
counter handing out `ChatVariable` timestamps. -/
structure SessionDB where
  messages : List Message
  chatVariables : List ChatVariableRec
  sessionExists : Bool
  exportedRows : List (List String)
  extractionRuns : Nat
  clock : Nat
deriving DecidableEq

/-- `analyzeChatForVariables` acting on the session state: with no configured
headers it returns without touching anything; otherwise it joins the message
contents with newlines, calls the extraction backend (`none` models a thrown
error, which the function rethrows), completes missing headers with empty
strings, and persists one `ChatVariable` row per entry with fresh increasing
timestamps. -/
def analyzeChatStep (gs : GlobalSettings)
    (backend : String → Option (List (String × String)))
    (db : SessionDB) : Option SessionDB :=
  if gs.extractionHeaders.isEmpty then some db
  else
    let chatText := String.intercalate "\n" (db.messages.map (fun m => m.content))
    match backend chatText with
    | none => none
    | some parsed =>
      let extractedVariables := addMissingHeaders gs.extractionHeaders parsed
      let newVars := extractedVariables.enum.map
        (fun p => ChatVariableRec.mk p.2.1 p.2.2 (db.clock + p.1))
      some { db with
        chatVariables := db.chatVariables ++ newVars,
        extractionRuns := db.extractionRuns + 1,
        clock := db.clock + extractedVariables.length }

/-- `writeVariablesToSpreadsheet` acting on the session state: appends the
computed row to the target sheet when one is produced; all its failures and
early returns leave the state unchanged (the function catches its own
errors). -/
def writeVariablesStep (gs : GlobalSettings) (db : SessionDB) : SessionDB :=
  match writeVariablesToSpreadsheet gs db.chatVariables with
  | none => db
  | some row => { db with exportedRows := db.exportedRows ++ [row] }

/-- One session teardown as performed identically by the `deleteSession`
handler, the disconnect handler and the DELETE route: run extraction, run the
export, then delete the session's messages and the session row (both
`destroy` calls are plain no-ops when nothing matches). `none` models the
catch branch being reached (only the extraction backend can throw here). -/
def teardownSession (gs : GlobalSettings)
    (backend : String → Option (List (String × String)))
    (db : SessionDB) : Option SessionDB :=
  match analyzeChatStep gs backend db with
  | none => none
  | some db1 =>
    let db2 := writeVariablesStep gs db1
    some { db2 with messages := [], sessionExists := false }

/-- Fetch lifecycle events used to talk about the scheduling of knowledge
fetches: initiation and settlement (resolution or rejection) of the fetch for
one reference. -/
inductive FetchEvent where
  | start : String → FetchEvent
  | settle : String → FetchEvent
deriving DecidableEq

/-- Whether an event is a fetch initiation. -/
def isStartEvent : FetchEvent → Bool
  | FetchEvent.start _ => true
  | FetchEvent.settle _ => false

/-- Concurrent fan-out in the sense of the spec (a `Promise.all` shape):
every fetch is initiated before any fetch settles. -/
def fanOutConcurrently (trace : List FetchEvent) : Bool :=
  (trace.dropWhile isStartEvent).all (fun e => !isStartEvent e)

/-- The loop body of `formatAllSheetDataForContext` instrumented with its
fetch schedule: the iteration initiates its own fetch and awaits its
settlement (also on rejection, which the catch absorbs) before the loop can
move on, then extends the accumulated context exactly as the plain step. -/
def sheetContextStepTraced (fetch : String → Option (List (List String)))
    (acc : List FetchEvent × String) (sheetId : String) : List FetchEvent × String :=
  (acc.1 ++ [FetchEvent.start sheetId, FetchEvent.settle sheetId],
   sheetContextStep fetch acc.2 sheetId)

/-- `formatAllSheetDataForContext` instrumented with its fetch schedule. -/
def formatAllSheetDataForContextTraced (fetch : String → Option (List (List String)))
    (sheetIds : List String) : List FetchEvent × String :=
  if sheetIds.isEmpty then ([], "")
  else sheetIds.foldl (sheetContextStepTraced fetch) ([], "Knowledge Base Information:\n")

/-- The loop body of `formatAllWebpageContentForContext` instrumented with
its fetch schedule, with the same sequential await-per-iteration shape. -/
def webpageContextStepTraced (fetch : String → Option WebpageData)
    (acc : List FetchEvent × String) (url : String) : List FetchEvent × String :=
  (acc.1 ++ [FetchEvent.start url, FetchEvent.settle url],
   webpageContextStep fetch acc.2 url)

/-- `formatAllWebpageContentForContext` instrumented with its fetch
schedule. -/
def formatAllWebpageContentForContextTraced (fetch : String → Option WebpageData)
    (urls : List String) : List FetchEvent × String :=
  if urls.isEmpty then ([], "")
  else urls.foldl (webpageContextStepTraced fetch) ([], "Webpage Knowledge Base:\n")

/-- Concrete settings used by witnesses: no knowledge bases, no extraction. -/
def gsW : GlobalSettings :=
  GlobalSettings.mk "You are a helpful assistant." [] [] [] none

/-- A concrete 501-character backend response, past the truncation bound. -/
def longResponse : String :=
  String.mk (List.replicate 501 'a')

/-- A concrete sheet fetcher where exactly the sheet "bad" is unreachable and
every other sheet yields one header row and one data row. -/
def sheetFetchW : String → Option (List (List String)) :=
  fun sheetId => if sheetId == "bad" then none else some [["h"], ["v"]]

/-- Concrete settings for the teardown scenario: one extraction header and a
configured target spreadsheet. -/
def gsC2 : GlobalSettings :=
  GlobalSettings.mk "p" [] [] ["name"] (some "T")

/-- A concrete extraction backend that always returns one field. -/
def backendC2 : String → Option (List (String × String)) :=
  fun _ => some [("name", "Ann")]

/-- A concrete session state holding one user message. -/
def dbC2 : SessionDB :=
  SessionDB.mk [Message.mk "user" "hi"] [] true [] 0 0

/-- Concrete settings for the export scenario of the spec example. -/
def gsExport : GlobalSettings :=
  GlobalSettings.mk "p" [] [] ["name", "email"] (some "T")

/-- The spec example rows, stored email first. -/
def varsA : List ChatVariableRec :=
  [ChatVariableRec.mk "email" "a@x.com" 2, ChatVariableRec.mk "name" "Ann" 1]

/-- The spec example rows, stored name first (a permutation of `varsA`). -/
def varsB : List ChatVariableRec :=
  [ChatVariableRec.mk "name" "Ann" 1, ChatVariableRec.mk "email" "a@x.com" 2]

lemma isEmpty_false_of_ne_nil {α : Type} {l : List α} (h : l ≠ []) : l.isEmpty = false := by
  cases l with
  | nil => exact absurd rfl h
  | cons a t => rfl

lemma renderCell_eq_getD (row : List String) (i : Nat) : renderCell row i = row.getD i "" := by
  unfold renderCell
  cases h : row.get? i with
  | none => simp [List.getD_eq_getElem?_getD, ← List.get?_eq_getElem?, h]
  | some c => by_cases hc : c = "" <;>
      simp [List.getD_eq_getElem?_getD, ← List.get?_eq_getElem?, h, hc]

/-- C8: every data row of a fetched sheet is rendered as the comma-separated
sequence of header-colon-cell entries over all headers, with an empty or
missing cell rendered as the empty string and never skipped, so alignment
follows the header list rather than the data row length. -/
theorem c8_row_rendering (headers row : List String) :
    renderRow headers row = renderRowAligned headers row := by
  simp only [renderRow, renderRowAligned, renderCell_eq_getD]

/-- C7: when the completion backend call fails, the message handler emits the
turn-level error event and persists no assistant message for the turn. -/
theorem c7_completion_failure (gs : GlobalSettings) (history : List Message)
    (userText : String) (sheetFetch : String → Option (List (List String)))
    (urlFetch : String → Option WebpageData) :
    (handleMessage gs true history userText sheetFetch urlFetch (fun _ => none)).errorEmitted
      = true ∧
    (handleMessage gs true history userText sheetFetch urlFetch (fun _ => none)).messages
      = history ++ [Message.mk "user" userText] :=
  ⟨rfl, rfl⟩

/-- C10: when the completion backend call fails, the user message appended at
the start of the turn remains persisted; only the assistant side of the turn
is withheld. -/
theorem c10_user_message_persists (gs : GlobalSettings) (history : List Message)
    (userText : String) (sheetFetch : String → Option (List (List String)))
    (urlFetch : String → Option WebpageData) :
    Message.mk "user" userText
      ∈ (handleMessage gs true history userText sheetFetch urlFetch (fun _ => none)).messages
    ∧ (handleMessage gs true history userText sheetFetch urlFetch (fun _ => none)).messages
      = history ++ [Message.mk "user" userText] := by
  constructor
  · show Message.mk "user" userText ∈ history ++ [Message.mk "user" userText]
    exact List.mem_append_right _ (List.mem_singleton_self _)
  · rfl

/-- C3: the assistant message persisted and emitted for a turn is the raw
backend response truncated at the 500-character bound: strictly longer
responses become their first 500 characters followed by the three-dot
marker, and responses at or under the bound are unchanged. -/
theorem c3_truncation (gs : GlobalSettings) (history : List Message) (userText : String)
    (sheetFetch : String → Option (List (List String)))
    (urlFetch : String → Option WebpageData) (raw : String) :
    MAX_LENGTH = 500 ∧
    (MAX_LENGTH < raw.length →
      (handleMessage gs true history userText sheetFetch urlFetch (fun _ => some raw)).emitted
        = some (sliceTo raw MAX_LENGTH ++ "...") ∧
      (handleMessage gs true history userText sheetFetch urlFetch (fun _ => some raw)).messages
        = history ++ [Message.mk "user" userText,
            Message.mk "assistant" (sliceTo raw MAX_LENGTH ++ "...")]) ∧
    (raw.length ≤ MAX_LENGTH →
      (handleMessage gs true history userText sheetFetch urlFetch (fun _ => some raw)).emitted
        = some raw ∧
      (handleMessage gs true history userText sheetFetch urlFetch (fun _ => some raw)).messages
        = history ++ [Message.mk "user" userText, Message.mk "assistant" raw]) := by
  have hm : (handleMessage gs true history userText sheetFetch urlFetch
      (fun _ => some raw)).messages
      = (history ++ [Message.mk "user" userText])
        ++ [Message.mk "assistant" (truncateResponse raw)] := rfl
  have he : (handleMessage gs true history userText sheetFetch urlFetch
      (fun _ => some raw)).emitted = some (truncateResponse raw) := rfl
  refine ⟨rfl, fun h => ?_, fun h => ?_⟩
  · have ht : truncateResponse raw = sliceTo raw MAX_LENGTH ++ "..." := by
      unfold truncateResponse
      rw [if_pos h]
    rw [he, hm, ht, List.append_assoc]
    exact ⟨rfl, rfl⟩
  · have ht : truncateResponse raw = raw := by
      unfold truncateResponse
      rw [if_neg (Nat.not_lt.mpr h)]
    rw [he, hm, ht, List.append_assoc]
    exact ⟨rfl, rfl⟩

/-- C3 witness: a concrete 501-character response is cut to its first 500
characters plus the marker, and a concrete short response passes unchanged. -/
theorem c3_truncation_witness :
    ((handleMessage gsW true [] "hello" (fun _ => none) (fun _ => none)
        (fun _ => some longResponse)).emitted
      = some (sliceTo longResponse MAX_LENGTH ++ "...")) ∧
    ((handleMessage gsW true [] "hello" (fun _ => none) (fun _ => none)
        (fun _ => some "ok")).emitted = some "ok") := by
  have hlen : longResponse.length = 501 := by
    show (List.replicate 501 'a').length = 501
    rw [List.length_replicate]
  refine ⟨((c3_truncation gsW [] "hello" (fun _ => none) (fun _ => none) longResponse).2.1
      ?_).1,
    ((c3_truncation gsW [] "hello" (fun _ => none) (fun _ => none) "ok").2.2 (by decide)).1⟩
  rw [hlen]
  decide

lemma analyze_eq_addMissing (headers : List String) (resp : List (String × String))
    (hne : headers ≠ []) :
    analyzeChatForVariables headers resp = addMissingHeaders headers resp := by
  unfold analyzeChatForVariables
  rw [isEmpty_false_of_ne_nil hne]
  rfl

lemma header_covered (headers : List String) (resp : List (String × String))
    (h : String) (hh : h ∈ headers) :
    ∃ v, (h, v) ∈ addMissingHeaders headers resp := by
  unfold addMissingHeaders
  by_cases hc : resp.any (fun p => p.1 == h) = true
  · obtain ⟨p, hp, hph⟩ := List.any_eq_true.mp hc
    obtain ⟨a, b⟩ := p
    have ha : a = h := by simpa using hph
    subst ha
    exact ⟨b, List.mem_append_left _ hp⟩
  · refine ⟨"", List.mem_append_right _ ?_⟩
    refine List.mem_map_of_mem (fun header => (header, "")) ?_
    refine List.mem_filter.mpr ⟨hh, ?_⟩
    simp only [Bool.not_eq_true] at hc
    simp [hc]

lemma header_missing_gets_empty (headers : List String) (resp : List (String × String))
    (h : String) (hh : h ∈ headers)
    (habs : ∀ v, (h, v) ∉ resp) :
    (h, "") ∈ addMissingHeaders headers resp := by
  have hany : resp.any (fun p => p.1 == h) = false := by
    by_contra hx
    rw [Bool.not_eq_false] at hx
    obtain ⟨p, hp, hph⟩ := List.any_eq_true.mp hx
    obtain ⟨a, b⟩ := p
    have ha : a = h := by simpa using hph
    subst ha
    exact habs b hp
  unfold addMissingHeaders
  refine List.mem_append_right _ ?_
  refine List.mem_map_of_mem (fun header => (header, "")) ?_
  exact List.mem_filter.mpr ⟨hh, by simp [hany]⟩

/-- C5: for a non-empty configured field list, the extraction result contains
every configured field name, with the empty string substituted for any
configured field the parsed backend response omitted. -/
theorem c5_extraction_completeness (headers : List String)
    (resp : List (String × String)) (hne : headers ≠ []) :
    (∀ h ∈ headers, ∃ v, (h, v) ∈ analyzeChatForVariables headers resp) ∧
    (∀ h ∈ headers, (∀ v, (h, v) ∉ resp) → (h, "") ∈ analyzeChatForVariables headers resp) := by
  rw [analyze_eq_addMissing headers resp hne]
  exact ⟨fun h hh => header_covered headers resp h hh,
    fun h hh habs => header_missing_gets_empty headers resp h hh habs⟩

/-- C5 witness: with fields name and email and a backend response carrying
only name, both fields appear in the result and email gets the empty
string. -/
theorem c5_extraction_completeness_witness :
    (∀ h ∈ ["name", "email"],
      ∃ v, (h, v) ∈ analyzeChatForVariables ["name", "email"] [("name", "Ann")]) ∧
    (∀ h ∈ ["name", "email"], (∀ v, (h, v) ∉ [("name", "Ann")]) →
      (h, "") ∈ analyzeChatForVariables ["name", "email"] [("name", "Ann")]) :=
  c5_extraction_completeness ["name", "email"] [("name", "Ann")] (by decide)

/-- C1 counterexample: with the single configured field name, a parsed
backend response carrying the unconfigured key extra leads to a persisted
record whose field name lies outside the configured set — the subset
invariant fails as stated, because the code only adds missing headers and
never filters out extra response keys. -/
theorem c1_subset_counterexample :
    ¬ ∀ p ∈ analyzeChatForVariables ["name"] [("extra", "x")], p.1 ∈ ["name"] := by
  decide

/-- C1 (amended): provided every key of the parsed backend response is a
configured field name (and the settings are unchanged between extraction and
export, as the single snapshot here), the persisted field names are a subset
of the configured set, every configured field appears, and every configured
field absent from the response is recorded with the empty-string value,
never omitted. -/
theorem c1_extracted_names_subset (headers : List String)
    (resp : List (String × String)) (hne : headers ≠ [])
    (hsub : ∀ p ∈ resp, p.1 ∈ headers) :
    (∀ p ∈ analyzeChatForVariables headers resp, p.1 ∈ headers) ∧
    (∀ h ∈ headers, ∃ v, (h, v) ∈ analyzeChatForVariables headers resp) ∧
    (∀ h ∈ headers, (∀ v, (h, v) ∉ resp) →
      (h, "") ∈ analyzeChatForVariables headers resp) := by
  rw [analyze_eq_addMissing headers resp hne]
  refine ⟨?_, fun h hh => header_covered headers resp h hh,
    fun h hh habs => header_missing_gets_empty headers resp h hh habs⟩
  intro p hp
  unfold addMissingHeaders at hp
  rcases List.mem_append.mp hp with hleft | hright
  · exact hsub p hleft
  · obtain ⟨header, hmem, heq⟩ := List.mem_map.mp hright
    rw [← heq]
    exact (List.mem_filter.mp hmem).1

/-- C1 witness: with configured fields name and email and a compliant
backend response carrying only name, the persisted names all lie in the
configured set, both configured fields appear, and email is recorded with
the empty string. -/
theorem c1_extracted_names_subset_witness :
    (∀ p ∈ analyzeChatForVariables ["name", "email"] [("name", "Ann")],
      p.1 ∈ ["name", "email"]) ∧
    (∀ h ∈ ["name", "email"],
      ∃ v, (h, v) ∈ analyzeChatForVariables ["name", "email"] [("name", "Ann")]) ∧
    (∀ h ∈ ["name", "email"], (∀ v, (h, v) ∉ [("name", "Ann")]) →
      (h, "") ∈ analyzeChatForVariables ["name", "email"] [("name", "Ann")]) :=
  c1_extracted_names_subset ["name", "email"] [("name", "Ann")] (by decide) (by decide)

lemma foldl_sheetContextStep (fetch : String → Option (List (List String)))
    (ids : List String) (acc : String) :
    ids.foldl (sheetContextStep fetch) acc
      = acc ++ concatStrings (ids.filterMap (sheetBlock fetch)) := by
  induction ids generalizing acc with
  | nil => simp [concatStrings]
  | cons i ids ih =>
    cases hb : sheetBlock fetch i with
    | none =>
      simp only [List.foldl_cons, List.filterMap_cons, hb, sheetContextStep]
      exact ih acc
    | some b =>
      simp only [List.foldl_cons, List.filterMap_cons, hb, sheetContextStep]
      rw [ih (acc ++ b), concatStrings, String.append_assoc]

lemma filterMap_sheetBlock_drop_failed (fetch : String → Option (List (List String)))
    (f : String) (hf : fetch f = none) (ids : List String) :
    ids.filterMap (sheetBlock fetch)
      = (ids.filter (fun i => i != f)).filterMap (sheetBlock fetch) := by
  induction ids with
  | nil => rfl
  | cons i ids ih =>
    by_cases hif : i = f
    · subst hif
      have hb : sheetBlock fetch i = none := by
        unfold sheetBlock
        rw [hf]
      simp [List.filterMap_cons, List.filter_cons, hb, ih]
    · cases hb : sheetBlock fetch i <;>
        simp [List.filterMap_cons, List.filter_cons, hif, hb, ih]

/-- C6: when the fetch of one configured sheet fails and the rest succeed,
the assembled knowledge block equals the category label followed by exactly
the blocks of the non-failed sheets in order — the failed sheet alone is
omitted — and the turn still completes with an assistant response. -/
theorem c6_failed_sheet_omitted (fetch : String → Option (List (List String)))
    (ids : List String) (f : String) (gs : GlobalSettings) (history : List Message)
    (userText : String) (urlFetch : String → Option WebpageData) (resp : String)
    (hne : ids ≠ []) (hf : fetch f = none) :
    formatAllSheetDataForContext fetch ids
      = "Knowledge Base Information:\n" ++
        concatStrings ((ids.filter (fun i => i != f)).filterMap (sheetBlock fetch)) ∧
    (handleMessage gs true history userText fetch urlFetch
        (fun _ => some resp)).emitted = some (truncateResponse resp) := by
  constructor
  · unfold formatAllSheetDataForContext
    rw [isEmpty_false_of_ne_nil hne]
    show ids.foldl (sheetContextStep fetch) "Knowledge Base Information:\n" = _
    rw [foldl_sheetContextStep, filterMap_sheetBlock_drop_failed fetch f hf]
  · rfl

/-- C6 witness: with sheets good and bad where bad is unreachable, the
assembled block carries exactly the good sheet's content and the turn
emits an assistant response. -/
theorem c6_failed_sheet_omitted_witness :
    formatAllSheetDataForContext sheetFetchW ["good", "bad"]
      = "Knowledge Base Information:\n" ++
        concatStrings ((["good", "bad"].filter (fun i => i != "bad")).filterMap
          (sheetBlock sheetFetchW)) ∧
    (handleMessage gsW true [] "hello" sheetFetchW (fun _ => none)
        (fun _ => some "fine")).emitted = some (truncateResponse "fine") :=
  c6_failed_sheet_omitted sheetFetchW ["good", "bad"] "bad" gsW [] "hello"
    (fun _ => none) "fine" (by decide) rfl

lemma foldl_sheetContextStepTraced (fetch : String → Option (List (List String)))
    (ids : List String) (tr : List FetchEvent) (s : String) :
    ids.foldl (sheetContextStepTraced fetch) (tr, s)
      = (tr ++ ids.flatMap (fun i => [FetchEvent.start i, FetchEvent.settle i]),
         ids.foldl (sheetContextStep fetch) s) := by
  induction ids generalizing tr s with
  | nil => simp
  | cons i ids ih =>
    simp only [List.foldl_cons, List.flatMap_cons, sheetContextStepTraced]
    rw [ih]
    simp [List.append_assoc]

lemma foldl_webpageContextStepTraced (fetch : String → Option WebpageData)
    (urls : List String) (tr : List FetchEvent) (s : String) :
    urls.foldl (webpageContextStepTraced fetch) (tr, s)
      = (tr ++ urls.flatMap (fun u => [FetchEvent.start u, FetchEvent.settle u]),
         urls.foldl (webpageContextStep fetch) s) := by
  induction urls generalizing tr s with
  | nil => simp
  | cons u urls ih =>
    simp only [List.foldl_cons, List.flatMap_cons, webpageContextStepTraced]
    rw [ih]
    simp [List.append_assoc]

/-- C9 counterexample: with two configured sheets the fetch schedule of the
assembler is initiation, settlement, initiation, settlement — the second
fetch starts only after the first has settled, so the fetches are not
performed concurrently (no all-starts-before-any-settle fan-out). -/
theorem c9_concurrency_counterexample :
    fanOutConcurrently (formatAllSheetDataForContextTraced sheetFetchW ["A", "B"]).1
      = false := by
  decide

/-- C9 (amended): for every turn the Context Assembler fetches the references
of a category sequentially — each reference's fetch is initiated and settled
before the next is initiated — and every fetch has settled before the
assembled text is returned, so no partial results are used early. -/
theorem c9_sequential_join (sheetFetch : String → Option (List (List String)))
    (urlFetch : String → Option WebpageData) (ids urls : List String) :
    (formatAllSheetDataForContextTraced sheetFetch ids).1
      = ids.flatMap (fun i => [FetchEvent.start i, FetchEvent.settle i]) ∧
    (formatAllSheetDataForContextTraced sheetFetch ids).2
      = formatAllSheetDataForContext sheetFetch ids ∧
    (formatAllWebpageContentForContextTraced urlFetch urls).1
      = urls.flatMap (fun u => [FetchEvent.start u, FetchEvent.settle u]) ∧
    (formatAllWebpageContentForContextTraced urlFetch urls).2
      = formatAllWebpageContentForContext urlFetch urls := by
  refine ⟨?_, ?_, ?_, ?_⟩
  · unfold formatAllSheetDataForContextTraced
    cases h : ids.isEmpty
    · rw [if_neg (by simp [h]), foldl_sheetContextStepTraced]
      simp
    · rw [if_pos (by simp [h]), List.isEmpty_iff.mp h]
      rfl
  · unfold formatAllSheetDataForContextTraced formatAllSheetDataForContext
    cases h : ids.isEmpty
    · rw [if_neg (by simp [h]), if_neg (by simp [h]), foldl_sheetContextStepTraced]
    · rw [if_pos (by simp [h]), if_pos (by simp [h])]
  · unfold formatAllWebpageContentForContextTraced
    cases h : urls.isEmpty
    · rw [if_neg (by simp [h]), foldl_webpageContextStepTraced]
      simp
    · rw [if_pos (by simp [h]), List.isEmpty_iff.mp h]
      rfl
  · unfold formatAllWebpageContentForContextTraced formatAllWebpageContentForContext
    cases h : urls.isEmpty
    · rw [if_neg (by simp [h]), if_neg (by simp [h]), foldl_webpageContextStepTraced]
    · rw [if_pos (by simp [h]), if_pos (by simp [h])]

lemma addMissingHeaders_ne_nil (headers : List String) (parsed : List (String × String))
    (hne : headers ≠ []) : addMissingHeaders headers parsed ≠ [] := by
  unfold addMissingHeaders
  intro hnil
  rcases List.append_eq_nil.mp hnil with ⟨h1, h2⟩
  subst h1
  rw [List.map_eq_nil_iff] at h2
  obtain ⟨a, ha⟩ := List.exists_mem_of_ne_nil headers hne
  have := List.filter_eq_nil_iff.mp h2 a ha
  simp at this

lemma teardown_step (gs : GlobalSettings)
    (backend : String → Option (List (String × String))) (db : SessionDB)
    (sid : String) (hheaders : gs.extractionHeaders ≠ [])
    (htarget : gs.targetSpreadsheetId = some sid)
    (hbackend : ∀ s, (backend s).isSome = true) :
    ∃ db', teardownSession gs backend db = some db' ∧
      db'.extractionRuns = db.extractionRuns + 1 ∧
      db'.exportedRows.length = db.exportedRows.length + 1 ∧
      db'.sessionExists = false ∧
      db'.messages = [] := by
  have hEmpty : gs.extractionHeaders.isEmpty = false := isEmpty_false_of_ne_nil hheaders
  obtain ⟨parsed, hp⟩ := Option.isSome_iff_exists.mp
    (hbackend (String.intercalate "\n" (db.messages.map (fun m => m.content))))
  have hana : analyzeChatStep gs backend db = some
      { db with
        chatVariables := db.chatVariables ++
          (addMissingHeaders gs.extractionHeaders parsed).enum.map
            (fun p => ChatVariableRec.mk p.2.1 p.2.2 (db.clock + p.1)),
        extractionRuns := db.extractionRuns + 1,
        clock := db.clock + (addMissingHeaders gs.extractionHeaders parsed).length } := by
    unfold analyzeChatStep
    rw [hEmpty]
    simp only [Bool.false_eq_true, if_false, hp]
  have hvars : (db.chatVariables ++
      (addMissingHeaders gs.extractionHeaders parsed).enum.map
        (fun p => ChatVariableRec.mk p.2.1 p.2.2 (db.clock + p.1))) ≠ [] := by
    intro hnil
    rcases List.append_eq_nil.mp hnil with ⟨h1, h2⟩
    have := congrArg List.length h2
    simp only [List.length_map, List.enum_length, List.length_nil] at this
    exact addMissingHeaders_ne_nil gs.extractionHeaders parsed hheaders
      (List.eq_nil_of_length_eq_zero this)
  obtain ⟨row, hrow⟩ : ∃ row, writeVariablesToSpreadsheet gs
      (db.chatVariables ++
        (addMissingHeaders gs.extractionHeaders parsed).enum.map
          (fun p => ChatVariableRec.mk p.2.1 p.2.2 (db.clock + p.1))) = some row := by
    unfold writeVariablesToSpreadsheet
    rw [htarget, isEmpty_false_of_ne_nil hvars]
    exact ⟨_, rfl⟩
  refine ⟨SessionDB.mk []
      (db.chatVariables ++
        (addMissingHeaders gs.extractionHeaders parsed).enum.map
          (fun p => ChatVariableRec.mk p.2.1 p.2.2 (db.clock + p.1)))
      false (db.exportedRows ++ [row]) (db.extractionRuns + 1)
      (db.clock + (addMissingHeaders gs.extractionHeaders parsed).length),
    ?_, rfl, ?_, rfl, rfl⟩
  · unfold teardownSession
    rw [hana]
    unfold writeVariablesStep
    simp only [hrow]
  · simp

/-- C2 counterexample: a session with one message, one configured extraction
header and a configured target spreadsheet, torn down twice in succession:
both teardowns run an extraction/export cycle (the run counter reaches 2 and
two rows are appended to the sheet), refuting that the two teardowns perform
exactly one cycle in total. The second teardown does complete without
error. -/
theorem c2_double_teardown_counterexample :
    ((teardownSession gsC2 backendC2 dbC2).bind (teardownSession gsC2 backendC2)).map
      (fun db => (db.extractionRuns, db.exportedRows.length)) = some (2, 2) := by
  decide

/-- C2 (amended): with a non-empty extraction field list, a configured target
spreadsheet and a responsive backend, each of the two successive teardowns
runs its own extraction/export cycle — two cycles in total, one exported row
each — and the second teardown completes without error, because deleting the
messages and the session row of an absent session is a no-op. -/
theorem c2_teardown_twice (gs : GlobalSettings)
    (backend : String → Option (List (String × String))) (db0 : SessionDB)
    (sid : String) (hheaders : gs.extractionHeaders ≠ [])
    (htarget : gs.targetSpreadsheetId = some sid)
    (hbackend : ∀ s, (backend s).isSome = true) :
    ∃ db1 db2, teardownSession gs backend db0 = some db1 ∧
      teardownSession gs backend db1 = some db2 ∧
      db2.extractionRuns = db0.extractionRuns + 2 ∧
      db2.exportedRows.length = db0.exportedRows.length + 2 ∧
      db2.sessionExists = false ∧
      db2.messages = [] := by
  obtain ⟨db1, h1, hr1, he1, _, _⟩ := teardown_step gs backend db0 sid hheaders htarget hbackend
  obtain ⟨db2, h2, hr2, he2, hs2, hm2⟩ :=
    teardown_step gs backend db1 sid hheaders htarget hbackend
  exact ⟨db1, db2, h1, h2, by omega, by omega, hs2, hm2⟩

/-- C2 witness: the amended statement at the concrete teardown scenario. -/
theorem c2_teardown_twice_witness :
    ∃ db1 db2, teardownSession gsC2 backendC2 dbC2 = some db1 ∧
      teardownSession gsC2 backendC2 db1 = some db2 ∧
      db2.extractionRuns = dbC2.extractionRuns + 2 ∧
      db2.exportedRows.length = dbC2.exportedRows.length + 2 ∧
      db2.sessionExists = false ∧
      db2.messages = [] :=
  c2_teardown_twice gsC2 backendC2 dbC2 "T" (by decide) rfl (fun _ => rfl)

lemma find_sorted_max (p : ChatVariableRec → Bool) :
    ∀ (l : List ChatVariableRec), List.Sorted tsGE l →
    ∀ (v : ChatVariableRec), l.find? p = some v →
    ∀ w ∈ l, p w = true → w.timestamp ≤ v.timestamp := by
  intro l
  induction l with
  | nil =>
    intro _ v hf
    simp at hf
  | cons a t ih =>
    intro hs v hf w hw hpw
    by_cases hpa : p a = true
    · rw [List.find?_cons_of_pos _ hpa] at hf
      injection hf with hv
      subst hv
      rcases List.mem_cons.mp hw with rfl | hwt
      · exact Nat.le_refl _
      · exact List.rel_of_sorted_cons hs w hwt
    · rw [List.find?_cons_of_neg _ hpa] at hf
      rcases List.mem_cons.mp hw with rfl | hwt
      · exact absurd hpw hpa
      · exact ih hs.of_cons v hf w hwt hpw

lemma find_on_sorted_props (vars : List ChatVariableRec) (h : String)
    (v : ChatVariableRec)
    (hf : (sortByTimestampDesc vars).find? (fun x => x.variableName == h) = some v) :
    v ∈ vars ∧ v.variableName = h ∧
      ∀ w ∈ vars, w.variableName = h → w.timestamp ≤ v.timestamp := by
  refine ⟨?_, ?_, ?_⟩
  · have hm := List.mem_of_find?_eq_some hf
    unfold sortByTimestampDesc at hm
    exact (List.mem_insertionSort tsGE).mp hm
  · simpa using List.find?_some hf
  · intro w hw hwn
    refine find_sorted_max _ (sortByTimestampDesc vars)
      (List.sorted_insertionSort tsGE vars) v hf w ?_ ?_
    · unfold sortByTimestampDesc
      exact (List.mem_insertionSort tsGE).mpr hw
    · simp [hwn]

lemma matching_max_unique (vars : List ChatVariableRec)
    (hdist : vars.Pairwise (fun a b => a.timestamp ≠ b.timestamp))
    (v v' : ChatVariableRec) (hv : v ∈ vars) (hv' : v' ∈ vars)
    (hts : v.timestamp = v'.timestamp) : v = v' := by
  by_contra hne
  have hsym : Symmetric (fun a b : ChatVariableRec => a.timestamp ≠ b.timestamp) :=
    fun a b hab e => hab e.symm
  exact (hdist.forall hsym hv hv' hne) hts

lemma selectCell_empty (vars : List ChatVariableRec) (h : String)
    (habs : ∀ w ∈ vars, w.variableName ≠ h) : selectCell vars h = "" := by
  unfold selectCell
  have hnone : ∀ v ∈ sortByTimestampDesc vars, ¬ ((v.variableName == h) = true) := by
    intro v hv
    have hm : v ∈ vars := by
      unfold sortByTimestampDesc at hv
      exact (List.mem_insertionSort tsGE).mp hv
    simp [habs v hm]
  rw [List.find?_eq_none.mpr hnone]

lemma selectCell_spec_max (vars : List ChatVariableRec) (h : String)
    (r : ChatVariableRec)
    (hdist : vars.Pairwise (fun a b => a.timestamp ≠ b.timestamp))
    (hr : r ∈ vars) (hname : r.variableName = h)
    (hmax : ∀ w ∈ vars, w.variableName = h → w.timestamp ≤ r.timestamp) :
    selectCell vars h = r.variableValue := by
  unfold selectCell
  cases hf : (sortByTimestampDesc vars).find? (fun x => x.variableName == h) with
  | none =>
    exfalso
    have hm : r ∈ sortByTimestampDesc vars := by
      unfold sortByTimestampDesc
      exact (List.mem_insertionSort tsGE).mpr hr
    have := List.find?_eq_none.mp hf r hm
    simp [hname] at this
  | some v =>
    obtain ⟨hv_mem, hv_name, hv_max⟩ := find_on_sorted_props vars h v hf
    have h1 : v.timestamp ≤ r.timestamp := hmax v hv_mem hv_name
    have h2 : r.timestamp ≤ v.timestamp := hv_max r hr hname
    have heq : v = r := matching_max_unique vars hdist v r hv_mem hr
      (Nat.le_antisymm h1 h2)
    rw [heq]

lemma selectCell_perm (vars vars' : List ChatVariableRec) (h : String)
    (hdist : vars.Pairwise (fun a b => a.timestamp ≠ b.timestamp))
    (hperm : List.Perm vars' vars) :
    selectCell vars' h = selectCell vars h := by
  by_cases hex : ∃ r ∈ vars, r.variableName = h
  · obtain ⟨r0, hr0, hn0⟩ := hex
    cases hf : (sortByTimestampDesc vars).find? (fun x => x.variableName == h) with
    | none =>
      exfalso
      have hm : r0 ∈ sortByTimestampDesc vars := by
        unfold sortByTimestampDesc
        exact (List.mem_insertionSort tsGE).mpr hr0
      have := List.find?_eq_none.mp hf r0 hm
      simp [hn0] at this
    | some v =>
      cases hf' : (sortByTimestampDesc vars').find? (fun x => x.variableName == h) with
      | none =>
        exfalso
        have hm : r0 ∈ sortByTimestampDesc vars' := by
          unfold sortByTimestampDesc
          exact (List.mem_insertionSort tsGE).mpr (hperm.mem_iff.mpr hr0)
        have := List.find?_eq_none.mp hf' r0 hm
        simp [hn0] at this
      | some v' =>
        obtain ⟨hv_mem, hv_name, hv_max⟩ := find_on_sorted_props vars h v hf
        obtain ⟨hv'_mem, hv'_name, hv'_max⟩ := find_on_sorted_props vars' h v' hf'
        have hv'_in : v' ∈ vars := hperm.mem_iff.mp hv'_mem
        have h1 : v'.timestamp ≤ v.timestamp := hv_max v' hv'_in hv'_name
        have h2 : v.timestamp ≤ v'.timestamp :=
          hv'_max v (hperm.mem_iff.mpr hv_mem) hv_name
        have heq : v' = v := matching_max_unique vars hdist v' v hv'_in hv_mem
          (Nat.le_antisymm h1 h2)
        unfold selectCell
        rw [hf, hf', heq]
  · have habs : ∀ w ∈ vars, w.variableName ≠ h := by
      intro w hw hwn
      exact hex ⟨w, hw, hwn⟩
    have habs' : ∀ w ∈ vars', w.variableName ≠ h :=
      fun w hw => habs w (hperm.mem_iff.mp hw)
    rw [selectCell_empty vars h habs, selectCell_empty vars' h habs']

/-- C4: with a configured target spreadsheet and at least one recorded
variable, the exported row is exactly one cell per configured field in
configured order; each cell is the most recently written value for that
field among the records with (pairwise-distinct) timestamps — empty string
when the field was never recorded — and any permutation of the records
(any write order) produces the same row. -/
theorem c4_export_row (gs : GlobalSettings) (sid : String)
    (vars vars' : List ChatVariableRec)
    (htarget : gs.targetSpreadsheetId = some sid) (hvars : vars ≠ [])
    (hdist : vars.Pairwise (fun a b => a.timestamp ≠ b.timestamp))
    (hperm : List.Perm vars' vars) :
    writeVariablesToSpreadsheet gs vars
      = some (gs.extractionHeaders.map (fun header => selectCell vars header)) ∧
    writeVariablesToSpreadsheet gs vars' = writeVariablesToSpreadsheet gs vars ∧
    (∀ h r, r ∈ vars → r.variableName = h →
      (∀ w ∈ vars, w.variableName = h → w.timestamp ≤ r.timestamp) →
      selectCell vars h = r.variableValue) ∧
    (∀ h, (∀ w ∈ vars, w.variableName ≠ h) → selectCell vars h = "") := by
  have hv' : vars' ≠ [] := by
    intro hn
    subst hn
    exact hvars hperm.nil_eq.symm
  have hrow : writeVariablesToSpreadsheet gs vars
      = some (gs.extractionHeaders.map (fun header => selectCell vars header)) := by
    unfold writeVariablesToSpreadsheet
    rw [htarget, isEmpty_false_of_ne_nil hvars]
    rfl
  have hrow' : writeVariablesToSpreadsheet gs vars'
      = some (gs.extractionHeaders.map (fun header => selectCell vars' header)) := by
    unfold writeVariablesToSpreadsheet
    rw [htarget, isEmpty_false_of_ne_nil hv']
    rfl
  refine ⟨hrow, ?_,
    fun h r hr hname hmax => selectCell_spec_max vars h r hdist hr hname hmax,
    fun h habs => selectCell_empty vars h habs⟩
  have hsel : ∀ h, selectCell vars' h = selectCell vars h :=
    fun h => selectCell_perm vars vars' h hdist hperm
  rw [hrow, hrow']
  simp only [hsel]

/-- C4 witness: with fields name and email and values written email first,
both storage orders export exactly the row Ann, a@x.com. -/
theorem c4_export_row_witness :
    writeVariablesToSpreadsheet gsExport varsB
      = writeVariablesToSpreadsheet gsExport varsA ∧
    writeVariablesToSpreadsheet gsExport varsA = some ["Ann", "a@x.com"] :=
  ⟨(c4_export_row gsExport "T" varsA varsB rfl (by decide) (by decide) (by decide)).2.1,
    by decide⟩

end VangelisChatbot
